import Mathlib

/-!
Verification development for the `fault_injector` distributed fault-injection
harness.  The definitions below are a shallow embedding of the Python sources:

* `fault_injector/network/msg_entity.py` (message transport base class),
* `fault_injector/network/msg_server.py` (server transport),
* `fault_injector/injection/thread_pool.py` (worker pool),
* `fault_injector/injection/fault_injector_engine.py` (session manager),
* `fault_injector/io/task.py`, `io/reader.py`, `io/writer.py` (CSV round trip),
* `fault_injector/util/config_tools.py` (configuration loading).

Machine-level conventions: Python integers are modelled as `Int`/`Nat`;
wall-clock readings and virtual-workload timestamps are modelled as `ℚ`
(Python uses binary floats; all quantities compared or combined here stay
exact in the fragments the claims are about, and the literal `0.1` of the
clock-correction slew is rendered as the rational `1/10`).  Host addresses
`(ip, port)` are modelled as pairs of strings, so that the broadcast
pseudo-address `('*', '*')` used by the transport is representable; only the
first component is ever inspected by the code.  Dictionaries keyed by strings
become association lists, and Python `None` becomes `Option.none`.
-/

namespace FaultInjector

/-- Address of a peer: an `(ip, port)` pair.  Ports are carried as strings so
that the broadcast pseudo-address can be represented uniformly. -/
abbrev Addr : Type := String × String

/-- Constant `MessageEntity.BROADCAST_ID`: the `'*'` marker used in the first component
of an output-queue address to denote a broadcast. -/
def BROADCAST_ID : String := "*"

/-- The broadcast pseudo-address `(BROADCAST_ID, BROADCAST_ID)` pushed on the
output queue by `MessageEntity.broadcast_msg`. -/
def broadcastAddr : Addr := (BROADCAST_ID, BROADCAST_ID)

/-- Test performed by `MessageEntity._flush_output_queue` on a queued address:
`addr[0] == MessageEntity.BROADCAST_ID`. -/
def isBroadcast (a : Addr) : Bool := a.1 = BROADCAST_ID

/-! ### Sequence-number counter (`msg_entity.py`, lines 65-70 and 201-232)

`MessageEntity` keeps `_curr_seq_ts` (the session timestamp, wall seconds at
construction) and `_curr_seq_num` (the running counter), with the wrap limit
`_seq_num_lim = 4000000000`. -/

/-- The wrap limit `_seq_num_lim` of the per-entity message counter. -/
def seqNumLim : Nat := 4000000000

/-- The `(_curr_seq_ts, _curr_seq_num)` pair of a `MessageEntity`. -/
structure SeqCounter where
  ts : Nat
  num : Nat
  deriving DecidableEq, Repr

/-- The `(sessionTs, seqNum)` pair stamped on the next outbound frame:
`seq_num = (self._curr_seq_ts, self._curr_seq_num)`. -/
def seqPair (c : SeqCounter) : Nat × Nat := (c.ts, c.num)

/-- Counter advance performed after each dispatched message in
`_flush_output_queue`: `_curr_seq_num = (_curr_seq_num + 1) % _seq_num_lim`,
and when the counter wraps to `0`, `_curr_seq_ts = int(time())` where `clock`
stands for the wall-clock reading `int(time())` at that moment. -/
def bumpSeq (clock : Nat) (c : SeqCounter) : SeqCounter :=
  let n := (c.num + 1) % seqNumLim
  { ts := if n = 0 then clock else c.ts, num := n }

/-- Strict lexicographic order on `(sessionTs, seqNum)` pairs; this is Python
tuple comparison, used both by the spec's monotonicity statement and by
`_forward_old_msgs` (`start_seq < m_seq_num`). -/
def lexLt (p q : Nat × Nat) : Prop := p.1 < q.1 ∨ (p.1 = q.1 ∧ p.2 < q.2)

instance (p q : Nat × Nat) : Decidable (lexLt p q) := by
  unfold lexLt; infer_instance

/-- Non-strict companion of `lexLt`. -/
def lexLe (p q : Nat × Nat) : Prop := lexLt p q ∨ p = q

/-! ### Output queue and flush loop (`msg_entity.py`, lines 201-232)

An item of `_outputQueue` is either a normal `(addr, dict)` pair enqueued by
`send_msg` / `broadcast_msg` / `_forward_old_msgs`, or the
`(addr, CONNECTION_TOREMOVE_MSG)` sentinel enqueued by `remove_host` (the
`is_status_message` test distinguishes the two: queued payloads are `dict`s
except for the integer sentinel).  Message payloads are opaque here (`α`). -/

inductive OutItem (α : Type) where
  /-- A `(addr, dict)` entry of `_outputQueue`. -/
  | msg (addr : Addr) (payload : α)
  /-- A `(addr, CONNECTION_TOREMOVE_MSG)` entry of `_outputQueue`. -/
  | toRemove (addr : Addr)
  deriving DecidableEq, Repr

/-- One framed message as put on the wire by `_send_msg`: the header carries
the `(sessionTs, seqNum)` pair, followed by the payload. -/
structure Framed (α : Type) where
  seq : Nat × Nat
  dest : Addr
  payload : α
  deriving DecidableEq, Repr

/-- State of the transport relevant to the flush loop: the sequence counter,
the keys of `_registeredHosts`, and the `_msgHistory` ring entries
`(seq_num, addr, msg)`.  (The bounded length of the ring, `_historyLen =
4096`, does not matter for the claims settled here, so eviction is not
modelled.) -/
structure FlushState (α : Type) where
  counter : SeqCounter
  hosts : List Addr
  history : List ((Nat × Nat) × Addr × α)
  deriving Repr

/-- One iteration of the `for i in range(n_msg)` loop of
`MessageEntity._flush_output_queue`, processing a single popped queue item.
`reSend` is the `reSendMsgs` flag, `sendOk a` abstracts whether
`sock.sendall` succeeds for host `a` (connection alive), and `clock` is the
wall-clock reading `int(time())` taken if the counter wraps during this
iteration.  Returns the new state together with the frames put on the wire
(frames whose send fails are dropped together with their host, mirroring
`_remove_host`). -/
def flushItem {α : Type} (reSend : Bool) (sendOk : Addr → Bool) (clock : Nat)
    (st : FlushState α) (item : OutItem α) : FlushState α × List (Framed α) :=
  match item with
  | .toRemove addr => ({ st with hosts := st.hosts.erase addr }, [])
  | .msg addr m =>
      let sq := seqPair st.counter
      let hist := if reSend then st.history ++ [(sq, addr, m)] else st.history
      if isBroadcast addr then
        -- broadcast: attempt a send to every registered host, with the same
        -- `(sessionTs, seqNum)` pair; hosts whose send fails are removed
        let frames := (st.hosts.filter (fun h => sendOk h)).map
          (fun h => Framed.mk sq h m)
        ({ counter := bumpSeq clock st.counter,
           hosts := st.hosts.filter (fun h => sendOk h),
           history := hist }, frames)
      else
        -- unicast: a single send; on failure the host is removed
        if addr ∈ st.hosts ∧ sendOk addr then
          ({ counter := bumpSeq clock st.counter, hosts := st.hosts,
             history := hist }, [Framed.mk sq addr m])
        else
          ({ counter := bumpSeq clock st.counter,
             hosts := st.hosts.erase addr, history := hist }, [])

/-- Processing of a whole sequence of output-queue items, each paired with the
wall-clock value in force when it is dispatched.  This covers any succession
of `_flush_output_queue` calls, since each call just drains the queue items in
FIFO order through the loop body modelled by `flushItem`. -/
def flushRun {α : Type} (reSend : Bool) (sendOk : Addr → Bool)
    (st : FlushState α) : List (OutItem α × Nat) → FlushState α × List (Framed α)
  | [] => (st, [])
  | (it, c) :: rest =>
      let stp := flushItem reSend sendOk c st it
      let r := flushRun reSend sendOk stp.1 rest
      (r.1, stp.2 ++ r.2)

/-- Evolution of the sequence counter alone along a run of queue items: only
`OutItem.msg` items touch the counter (the removal sentinel does not). -/
def counterStep {α : Type} (c : SeqCounter) (ev : OutItem α × Nat) : SeqCounter :=
  match ev.1 with
  | .msg _ _ => bumpSeq ev.2 c
  | .toRemove _ => c

/-- The `(sessionTs, seqNum)` pairs assigned to the successive messages of a
run, in dispatch order (removal sentinels are skipped: they consume no
sequence number). -/
def assignedPairs {α : Type} (c : SeqCounter) : List (OutItem α × Nat) → List (Nat × Nat)
  | [] => []
  | ev :: rest =>
      match ev.1 with
      | .msg _ _ => seqPair c :: assignedPairs (bumpSeq ev.2 c) rest
      | .toRemove _ => assignedPairs c rest

/-- Hypothesis under which the wraparound refresh keeps the pair monotonic:
whenever dispatching a message makes the counter wrap to `0`, the wall clock
read at that moment is strictly beyond the session timestamp currently in
force.  (The counter wraps after `4000000000` outbound frames, so successive
wraps are far more than one second apart in any real execution.) -/
def wrapSafe {α : Type} (c : SeqCounter) : List (OutItem α × Nat) → Prop
  | [] => True
  | ev :: rest =>
      match ev.1 with
      | .msg _ _ => ((c.num + 1) % seqNumLim = 0 → c.ts < ev.2) ∧
          wrapSafe (bumpSeq ev.2 c) rest
      | .toRemove _ => wrapSafe c rest

/-! ### Replay of missed messages (`msg_entity.py` lines 234-247, `msg_server.py` lines 44-78)

`_recv_msg` returns `(None, seqnum)` for a zero-length frame when
`reSendMsgs` is set (a forwarding request); the server's `_listen` loop then
calls `_forward_old_msgs(seq_num, peername)`, which re-enqueues on
`_outputQueue` the payloads of all history entries beyond the requested
sequence number that were originally broadcast. -/

/-- Model of `MessageEntity._forward_old_msgs(start_seq, addr)`: the `(addr, msg)`
pairs appended to `_outputQueue`, in history order.  The Python loop keeps an
entry iff `start_seq < m_seq_num and m_addr[0] == BROADCAST_ID` (tuple
comparison is lexicographic). -/
def forwardOldMsgs {α : Type} (hist : List ((Nat × Nat) × Addr × α))
    (startSeq : Nat × Nat) (addr : Addr) : List (Addr × α) :=
  match hist with
  | [] => []
  | e :: rest =>
      if lexLt startSeq e.1 ∧ isBroadcast e.2.1 then
        (addr, e.2.2) :: forwardOldMsgs rest startSeq addr
      else
        forwardOldMsgs rest startSeq addr

/-- Reaction of `MessageServer._listen` to the value `(data, seq_num)`
returned by `_recv_msg` for a readable peer socket `peer`. -/
inductive ServerRecvAction (α : Type) where
  /-- Case where `data` was a payload: it is appended to `_inputQueue`. -/
  | deliver (addr : Addr) (payload : α)
  /-- A forwarding request: `_forward_old_msgs(seq_num, peername)` is called. -/
  | replay (startSeq : Nat × Nat) (addr : Addr)
  /-- Nothing happens (corrupt frame). -/
  | drop
  deriving DecidableEq, Repr

/-- Dispatch performed by `MessageServer._listen` (lines 62-67) on the result
of `_recv_msg`: a non-`None` payload goes to the input queue; otherwise, if
`reSendMsgs` is set and a sequence number was decoded (which is exactly the
zero-length forwarding-request case of `_recv_msg`), old messages are
forwarded to the requesting peer. -/
def serverHandleRecv {α : Type} (reSend : Bool) (peer : Addr)
    (data : Option α) (seqnum : Option (Nat × Nat)) : ServerRecvAction α :=
  match data with
  | some d => .deliver peer d
  | none =>
      match seqnum with
      | some sq => if reSend then .replay sq peer else .drop
      | none => .drop

/-! ### Input queue (`msg_entity.py`, lines 175-187 and 249-257)

`pop_msg_queue` acquires the counting semaphore `_messageSem` (non-blocking
acquisition fails but its result is ignored), then pops the left end of
`_inputQueue` if non-empty, else returns `(None, None)`. -/

/-- State of the inbound side of a `MessageEntity`: the `_inputQueue` deque
and the value of the counting semaphore `_messageSem`. -/
structure InQueueState (α : Type) where
  inputQueue : List (Addr × α)
  messageSem : Nat
  deriving DecidableEq, Repr

/-- Model of `Semaphore.acquire(blocking)` on a counting semaphore: returns the new
count, or `none` when a blocking acquisition would suspend forever (no
producer exists in this sequential model).  A failed non-blocking acquisition
leaves the count unchanged (the boolean result is ignored by the caller). -/
def semAcquire (blocking : Bool) (sem : Nat) : Option Nat :=
  if 0 < sem then some (sem - 1)
  else if blocking then none else some sem

/-- Model of `MessageEntity.pop_msg_queue(blocking)`: semaphore acquisition followed by
a guarded `popleft`; `none` denotes the blocked (never-returning) case. -/
def pop_msg_queue {α : Type} (st : InQueueState α) (blocking : Bool) :
    Option ((Option Addr × Option α) × InQueueState α) :=
  (semAcquire blocking st.messageSem).map (fun s2 =>
    match st.inputQueue with
    | [] => ((none, none), { inputQueue := [], messageSem := s2 })
    | x :: t => ((some x.1, some x.2), { inputQueue := t, messageSem := s2 }))

/-! ### Generic thread pool (`thread_pool.py`, lines 98-239) -/

/-- State of a `ThreadPool` relevant to task submission: the `_queue` list,
the counting semaphore `_queueSem`, and the `_initialized` / `_terminating`
flags.  (`τ` is the task type.) -/
structure ThreadPoolState (τ : Type) where
  queue : List τ
  queueSem : Nat
  initialized : Bool
  terminating : Bool
  deriving DecidableEq, Repr

/-- Model of `ThreadPool.submit_task(task)` (lines 171-185): refused when the pool is
terminating or uninitialized; otherwise the task is appended to `_queue` and
`_queueSem` is released once.  (`_check_threads` only touches the worker
thread objects, never the queue or the semaphore, and is not even reached in
the refused case.) -/
def submit_task {τ : Type} (st : ThreadPoolState τ) (task : τ) : ThreadPoolState τ :=
  if st.terminating ∨ st.initialized = false then st
  else { st with queue := st.queue ++ [task], queueSem := st.queueSem + 1 }

/-! ### Injection thread pool (`thread_pool.py`, lines 242-437)

The pool-side task objects carry the fields `_execute_task` actually reads:
`args`, `timestamp`, `duration`, `seqNum`, `isFault` (`cores` is unused by
this version of the pool).  Virtual-clock quantities are rationals. -/

/-- Task object as consumed by `InjectionThreadPool._execute_task`. -/
structure InjTask where
  args : String
  timestamp : ℚ
  duration : ℚ
  seqNum : Int
  isFault : Bool
  deriving DecidableEq, Repr

/-- Constant `Task.VALUE_DUR_NO_LIM`: a zero duration means unbounded. -/
def VALUE_DUR_NO_LIM : ℚ := 0

/-- Status messages broadcast by the pool through its `MessageEntity`
(`_inform_start` and `_process_result` build them via `MessageBuilder`). -/
inductive StatusMsg where
  /-- A `status_start` broadcast built by `_inform_start`. -/
  | statusStart (task : InjTask) (timestamp : ℚ)
  /-- A `status_end` broadcast built by `_process_result` when `rcode == 0`. -/
  | statusEnd (task : InjTask) (timestamp : ℚ)
  /-- A `status_err` broadcast built by `_process_result` when `rcode != 0`;
  the `error` field carries `rcode`. -/
  | statusErr (task : InjTask) (timestamp : ℚ) (error : Int)
  deriving DecidableEq, Repr

/-- Virtual-clock anchors of the pool: `_session_start`,
`_session_start_abs` and `_correction_factor`. -/
structure PoolClock where
  session_start : ℚ
  session_start_abs : ℚ
  correction_factor : ℚ
  deriving DecidableEq, Repr

/-- Constant `InjectionThreadPool.CORRECTION_THRESHOLD`. -/
def CORRECTION_THRESHOLD : ℚ := 60

/-- Model of `InjectionThreadPool.correct_time(timestamp)` (lines 286-301):
compares the remote workload timestamp against the local virtual time
`my_timestamp = time() - _session_start_abs + _session_start` (`now` stands
for `time()`) and applies the `0.1`-gain slew to `_correction_factor` when
the residual drift exceeds the threshold. -/
def correct_time (st : PoolClock) (now : ℚ) (timestamp : ℚ) : PoolClock :=
  let my_timestamp := now - st.session_start_abs + st.session_start
  let diff := timestamp - my_timestamp - st.correction_factor
  if |diff| > CORRECTION_THRESHOLD then
    { st with correction_factor := st.correction_factor + (1 / 10) * diff }
  else
    st

/-- Configuration flags of this version of `InjectionThreadPool`
(constructor, lines 252-274): `_skip_expired` and `_retry_tasks`. -/
structure PoolCfg where
  skip_expired : Bool
  retry_tasks : Bool
  deriving DecidableEq, Repr

/-- Positional-parameter range of a Python callable (minimum required and
maximum accepted positional arguments). -/
structure PySignature where
  minArgs : Nat
  maxArgs : Nat
  deriving DecidableEq, Repr

/-- Python positional-call semantics: a call is well-formed exactly when the
argument count fits the callee's signature; otherwise it raises `TypeError`
before the callee's body runs. -/
def pyCallOk (sig : PySignature) (argc : Nat) : Bool :=
  decide (sig.minArgs ≤ argc ∧ argc ≤ sig.maxArgs)

/-- Signature of `MessageBuilder.status_start` (msg_builder.py lines
130-134): a single `Task` object. -/
def status_start_sig : PySignature := { minArgs := 1, maxArgs := 1 }

/-- Signature of `MessageBuilder.status_end` (msg_builder.py lines 144-150):
`(t, output=None)`. -/
def status_end_sig : PySignature := { minArgs := 1, maxArgs := 2 }

/-- Signature of `MessageBuilder.status_error` (msg_builder.py lines
152-160): `(t, error, output=None)`. -/
def status_error_sig : PySignature := { minArgs := 2, maxArgs := 3 }

/-- Positional arguments passed to `MessageBuilder.status_start` by
`_inform_start` (thread_pool.py line 419):
`(task.args, task.duration, task.seqNum, timestamp, task.isFault)`. -/
def inform_start_call_argc : Nat := 5

/-- Positional arguments passed to `MessageBuilder.status_error` by
`_process_result` (thread_pool.py line 432):
`(task.args, task.duration, task.seqNum, timestamp, task.isFault, rcode)`. -/
def process_result_error_call_argc : Nat := 6

/-- Positional arguments passed to `MessageBuilder.status_end` by
`_process_result` (thread_pool.py line 434):
`(task.args, task.duration, task.seqNum, timestamp, task.isFault)`. -/
def process_result_end_call_argc : Nat := 5

/-- Result of a Python expression that may raise an uncaught `TypeError`. -/
inductive PyExc (β : Type) where
  | ok (v : β)
  | typeError
  deriving DecidableEq, Repr

/-- Model of `InjectionThreadPool._inform_start(task, timestamp)` (lines
412-421): builds `MessageBuilder.status_start` for the task and broadcasts
the message if the build succeeds.  In this snapshot the build call passes
five positional arguments (thread_pool.py line 419) to the single-parameter
signature of msg_builder.py line 131, so it raises `TypeError` before
anything is built or broadcast. -/
def inform_start (task : InjTask) (timestamp : ℚ) : PyExc (List StatusMsg) :=
  if pyCallOk status_start_sig inform_start_call_argc then
    .ok [StatusMsg.statusStart task timestamp]
  else .typeError

/-- Model of `InjectionThreadPool._process_result(task, timestamp, rcode)`
(lines 423-436): builds `status_err` carrying `rcode` when `rcode != 0`,
else `status_end`, and broadcasts it unless the worker thread has been
flagged for termination.  The build happens before the termination check, so
a `TypeError` from the build (in this snapshot: six positional arguments at
thread_pool.py line 432 against the `(t, error, output=None)` signature of
msg_builder.py line 153, or five at line 434 against `(t, output=None)` of
line 145) escapes regardless of the flag, and `broadcast_msg` is never
reached. -/
def process_result (task : InjTask) (timestamp : ℚ) (rcode : Int)
    (hasToTerminate : Bool) : PyExc (List StatusMsg) :=
  if rcode ≠ 0 then
    if pyCallOk status_error_sig process_result_error_call_argc then
      .ok (if hasToTerminate then []
           else [StatusMsg.statusErr task timestamp rcode])
    else .typeError
  else
    if pyCallOk status_end_sig process_result_end_call_argc then
      .ok (if hasToTerminate then []
           else [StatusMsg.statusEnd task timestamp])
    else .typeError

/-- Behaviour of one spawned subprocess, as observed by `Popen.wait`:
either it exits `elapsed` seconds after this spawn with return code `rcode`,
or it never exits on its own. -/
inductive ProcOutcome where
  | exits (elapsed : ℚ) (rcode : Int)
  | noExit
  deriving DecidableEq, Repr

/-- Joint outcome of a worker slot executing one task: either
`_execute_task` returns normally, with the broadcast messages in emission
order and the number of subprocesses spawned, or an uncaught exception
escapes it, with the messages broadcast and the subprocesses spawned before
the raise.  In the crashed case the worker thread dies (`_working_loop` has
no handler), so a subprocess spawned before the raise keeps running
unsupervised. -/
inductive ExecOutcome where
  | finished (msgs : List StatusMsg) (spawns : Nat)
  | crashed (msgs : List StatusMsg) (spawns : Nat)
  deriving DecidableEq, Repr

/-- Model of the bounded-duration wait loop of `_execute_task`
(lines 384-398 plus the `TimeoutExpired` handler, lines 400-403).
`cur` is the current wall time, `task_start_time` the time of the first
spawn, and each recursive step consumes the outcome of the currently running
subprocess.  Returns `(task_end_time, rcode, spawn count of this loop)`, or
`none` if the supplied outcome list is too short to determine the run.
The loop invariant of the source is `task_timeout > 0` on entry. -/
def wait_retry_loop (retry_tasks : Bool) (task_duration : ℚ)
    (task_start_time : ℚ) (cur : ℚ) (task_timeout : ℚ) :
    List ProcOutcome → Option (ℚ × Int × Nat)
  | [] => none
  | o :: rest =>
      match o with
      | .noExit =>
          -- `p.wait(timeout=task_timeout)` raises `TimeoutExpired`:
          -- the subprocess is killed and the run counts as a normal
          -- termination with code 0
          some (cur + task_timeout, 0, 0)
      | .exits d rc =>
          if d ≤ task_timeout then
            -- the subprocess exits within the timeout
            let task_end_time := cur + d
            let timeout2 := task_duration - (task_end_time - task_start_time)
            if retry_tasks ∧ timeout2 > 0 then
              -- `if self._retry_tasks and task_timeout > 0`: respawn an
              -- identical subprocess and continue the loop, whatever `rcode`
              match wait_retry_loop retry_tasks task_duration task_start_time
                  task_end_time timeout2 rest with
              | none => none
              | some (e, r, n) => some (e, r, n + 1)
            else
              some (cur + d, rc, 0)
          else
            -- the subprocess outlives the timeout: `TimeoutExpired`
            some (cur + task_timeout, 0, 0)

/-- Model of `InjectionThreadPool._execute_task(task)` (lines 334-410).
Wall time on entry is `now`; `hasToTerminate` is the slot's termination flag
(constant during the sequential execution modelled here, and checked by
`start_process` and `_process_result`); `spawnOk` tells whether the initial
`Popen` call succeeds (`False` models the `OSError`/`FileNotFoundError`
branch of `start_process`); `outcomes` lists the behaviours of the
successively spawned subprocesses.  Returns `none` when `outcomes` is too
short to determine the run. -/
def execute_task (cfg : PoolCfg) (st : PoolClock) (task : InjTask) (now : ℚ)
    (hasToTerminate : Bool) (spawnOk : Bool) (outcomes : List ProcOutcome) :
    Option ExecOutcome :=
  let elapsed_time := now - st.session_start_abs + st.correction_factor
  let time_to_task := task.timestamp - st.session_start - elapsed_time
  if time_to_task < 0 ∧ cfg.skip_expired then
    -- expired task: `self._process_result(task, time(), -1)`, then return;
    -- no subprocess is spawned either way
    match process_result task now (-1) hasToTerminate with
    | .ok msgs => some (.finished msgs 0)
    | .typeError => some (.crashed [] 0)
  else
    -- if `time_to_task > 0` the worker first sleeps on `_sleepCondition`
    let task_start_time := if time_to_task > 0 then now + time_to_task else now
    if hasToTerminate then
      -- `start_process` refuses to spawn and `p is None`: plain return
      some (.finished [] 0)
    else if spawnOk = false then
      -- `p is None and not current_thread().has_to_terminate()`: spawn error
      match process_result task task_start_time (-1) hasToTerminate with
      | .ok msgs => some (.finished msgs 0)
      | .typeError => some (.crashed [] 0)
    else
      -- the subprocess is spawned (line 363) before `_inform_start`
      -- (line 375); a raise in `_inform_start` leaves it running
      match inform_start task task_start_time with
      | .typeError => some (.crashed [] 1)
      | .ok startMsgs =>
          match outcomes with
          | [] => none
          | o :: rest =>
              if task.duration = VALUE_DUR_NO_LIM then
                -- no timeout: `p.wait(timeout=None)` until natural exit
                match o with
                | .exits d rc =>
                    match process_result task (task_start_time + d) rc
                        hasToTerminate with
                    | .ok endMsgs => some (.finished (startMsgs ++ endMsgs) 1)
                    | .typeError => some (.crashed startMsgs 1)
                | .noExit => none
              else
                match wait_retry_loop cfg.retry_tasks task.duration
                    task_start_time task_start_time task.duration
                    (o :: rest) with
                | none => none
                | some (task_end_time, rcode, retries) =>
                    match process_result task task_end_time rcode
                        hasToTerminate with
                    | .ok endMsgs =>
                        some (.finished (startMsgs ++ endMsgs) (1 + retries))
                    | .typeError => some (.crashed startMsgs (1 + retries))

/-! ### Engine session manager (`fault_injector_engine.py`, lines 102-141) -/

/-- Session-related state of an `InjectorEngine`: `_master` and
`_session_timestamp` (initialised to `None` and `-1`). -/
structure EngineState where
  master : Option Addr
  session_timestamp : Int
  deriving DecidableEq, Repr

/-- The two message kinds processed by `_update_session`. -/
inductive SessionMsg where
  | startSession (timestamp : Int)
  | endSession
  deriving DecidableEq, Repr

/-- Reply built by `MessageBuilder.ack(time(), ack, err)`: the positive flag
and the optional `error` field (`-1` marks a session reset). -/
structure AckReply where
  positive : Bool
  error : Option Int
  deriving DecidableEq, Repr

/-- Actions performed on the engine's thread pool by `_update_session`. -/
inductive PoolAction where
  /-- The `self._pool.stop(kill_abruptly=True); self._pool.start()` pair. -/
  | stopStart
  deriving DecidableEq, Repr

/-- Test `self._master not in addresses` of `_update_session` (with Python
semantics, `None not in addresses` is true for address lists). -/
def masterNotIn (m : Option Addr) (hosts : List Addr) : Bool :=
  match m with
  | none => true
  | some a => decide (a ∉ hosts)

/-- Model of `InjectorEngine._update_session(addr, msg)`: returns the new
engine state, the ack sent back to `addr`, and the pool actions performed.
`reSendMsgs` is `self._server.reSendMsgs` and `hosts` is
`self._server.get_registered_hosts()`. -/
def update_session (st : EngineState) (reSendMsgs : Bool) (hosts : List Addr)
    (addr : Addr) (msg : SessionMsg) : EngineState × AckReply × List PoolAction :=
  match msg with
  | .endSession =>
      if st.master = some addr then
        ({ master := none, session_timestamp := -1 },
         { positive := true, error := none }, [])
      else
        (st, { positive := false, error := none }, [])
  | .startSession session_ts =>
      if st.master = none ∨ masterNotIn st.master hosts = true ∨
          st.master = some addr then
        if ¬ reSendMsgs ∨ st.session_timestamp ≠ session_ts ∨
            st.master = none then
          ({ master := some addr, session_timestamp := session_ts },
           { positive := true, error := some (-1) }, [.stopStart])
        else
          ({ master := some addr, session_timestamp := session_ts },
           { positive := true, error := none }, [])
      else
        (st, { positive := false, error := none }, [])

/-! ### Configuration loader (`config_tools.py`, lines 29-77) -/

/-- Values appearing in the default configuration table. -/
inductive ConfigValue where
  | s (v : String)
  | b (v : Bool)
  | i (v : Int)
  | strList (v : List String)
  | null
  deriving DecidableEq, Repr

/-- Association-list view of a Python dict with string keys. -/
abbrev ConfigDict : Type := List (String × ConfigValue)

/-- Dict lookup: the value bound to `k`, if any. -/
def cfgGet (d : ConfigDict) (k : String) : Option ConfigValue :=
  (d.find? (fun p => p.1 = k)).map (fun p => p.2)

/-- Single-key store with Python dict semantics: an existing key keeps its
position and gets the new value; a new key is appended. -/
def cfgSet (d : ConfigDict) (k : String) (v : ConfigValue) : ConfigDict :=
  match d with
  | [] => [(k, v)]
  | p :: t => if p.1 = k then (k, v) :: t else p :: cfgSet t k v

/-- Model of `dict.update`: stores every pair of `upd` into `base` in order. -/
def cfgUpdate (base upd : ConfigDict) : ConfigDict :=
  upd.foldl (fun d p => cfgSet d p.1 p.2) base

/-- The default configuration table `ConfigLoader._dfl_config`. -/
def dfl_config : ConfigDict :=
  [("RESULTS_DIR", .s "results"),
   ("SKIP_EXPIRED", .b true),
   ("RETRY_TASKS", .b true),
   ("RETRY_TASKS_ON_ERROR", .b false),
   ("ABRUPT_TASK_KILL", .b true),
   ("RECOVER_AFTER_DISCONNECT", .b false),
   ("LOG_OUTPUTS", .b true),
   ("ENABLE_ROOT", .b false),
   ("SERVER_PORT", .i 30000),
   ("MAX_REQUESTS", .i 20),
   ("RETRY_INTERVAL", .i 600),
   ("RETRY_PERIOD", .i 30),
   ("PRE_SEND_INTERVAL", .i 600),
   ("WORKLOAD_PADDING", .i 20),
   ("SESSION_WAIT", .i 60),
   ("NUMA_CORES_FAULTS", .null),
   ("NUMA_CORES_BENCHMARKS", .null),
   ("HOSTS", .strList []),
   ("AUX_COMMANDS", .strList [])]

/-- Outcome of opening and JSON-decoding the configuration file argument of
`getConfig`: no file given, a file that cannot be read or holds invalid JSON
(the `FileNotFoundError` / `IOError` / `ValueError` branch), or a decoded
JSON object (the configuration format). -/
inductive ConfigFile where
  | noFile
  | badFile
  | objFile (entries : ConfigDict)
  deriving Repr

/-- Model of `ConfigLoader.getConfig(file)` (lines 58-77): a copy of the
default table, updated with the decoded file entries when they exist. -/
def getConfig (file : ConfigFile) : ConfigDict :=
  match file with
  | .noFile => dfl_config
  | .badFile => dfl_config
  | .objFile entries => cfgUpdate dfl_config entries

/-! ### Workload CSV round trip (`io/task.py`, `io/writer.py`, `io/reader.py`)

The CSV line codec of the Python `csv` module (delimiter `;`, quote `|`,
minimal quoting, `skipinitialspace=False`) round-trips every cell string
exactly, so a written-then-reread row is modelled as the list of its cell
strings, one per column of the fixed header
`[args, cores, duration, isFault, seqNum, timestamp]` (the sorted `Task`
attribute names used by `CSVWriter`).  What remains — and what the claims
are about — is how `write_entry` and `read_entry` produce and consume those
cell strings. -/

/-- Fuelled little-endian digit expansion; the fuel only drives structural
recursion and is irrelevant as soon as it dominates the number. -/
def natDigitsLEAux (fuel n : Nat) : List Nat :=
  match fuel with
  | 0 => [n]
  | fuel2 + 1 => if n < 10 then [n] else (n % 10) :: natDigitsLEAux fuel2 (n / 10)

/-- Little-endian decimal digits of a natural number (helper for the Python
`str` rendering of integers performed by `csv.DictWriter`). -/
def natDigitsLE (n : Nat) : List Nat := natDigitsLEAux n n

/-- Decimal digit character for a value below ten. -/
def digitChar (d : Nat) : Char := Char.ofNat (48 + d)

/-- Python `str` of a non-negative integer. -/
def pyStrOfNat (n : Nat) : String := ⟨((natDigitsLE n).reverse).map digitChar⟩

/-- Python `str` of an `int` (`csv.DictWriter` stringifies cell values). -/
def pyStrOfInt (i : Int) : String :=
  if i < 0 then "-" ++ pyStrOfNat i.natAbs else pyStrOfNat i.toNat

/-- Python `str` of a `bool`. -/
def pyStrOfBool (b : Bool) : String := if b then "True" else "False"

/-- Characters removed by Python `str.strip()`. -/
def isPyWs (c : Char) : Bool :=
  c = ' ' ∨ c = '\t' ∨ c = '\n' ∨ c = '\x0d' ∨ c = '\x0b' ∨ c = '\x0c'

/-- Python `str.strip()`, applied by `read_entry` to every key and value. -/
def pyStrip (s : String) : String :=
  ⟨((s.toList.dropWhile isPyWs).reverse.dropWhile isPyWs).reverse⟩

/-- Value of a decimal digit character, when it is one. -/
def charDigit (c : Char) : Option Nat :=
  if 48 ≤ c.toNat ∧ c.toNat ≤ 57 then some (c.toNat - 48) else none

/-- Accumulating decimal evaluation of a character list; fails on the first
non-digit. -/
def digitsValAux (acc : Nat) : List Char → Option Nat
  | [] => some acc
  | c :: t =>
      match charDigit c with
      | none => none
      | some d => digitsValAux (acc * 10 + d) t

/-- Decimal value of a non-empty all-digit character list. -/
def digitsVal (l : List Char) : Option Nat :=
  match l with
  | [] => none
  | _ :: _ => digitsValAux 0 l

/-- Python `int(s)` as used on already-stripped cell strings: an optional
sign followed by decimal digits.  (The tolerance of `int` for inner
underscores and surrounding whitespace never applies to the strings produced
by `write_entry`, and is not modelled.)  A `none` result corresponds to the
`ValueError` that `int` raises, which `dict_to_task` does not catch. -/
def pyIntOfString (s : String) : Option Int :=
  match s.toList with
  | [] => none
  | c :: rest =>
      if c = '-' then
        match digitsVal rest with
        | none => none
        | some n => some (-(n : Int))
      else if c = '+' then
        match digitsVal rest with
        | none => none
        | some n => some ((n : Int))
      else
        match digitsVal (c :: rest) with
        | none => none
        | some n => some ((n : Int))

/-- Constant `CSVWriter.NONE_VALUE`: the cell text standing for `None`. -/
def NONE_VALUE : String := "None"

/-- The `Task` record of `io/task.py`.  Every attribute may hold `None`
(`dict_to_task` assigns `None` to fields whose cell resolved to `None`), so
each field is an `Option`; the attribute types are those of the `Task()`
defaults: `str`, `int`, `int`, `int`, `bool`, `str`. -/
structure Task where
  args : Option String
  timestamp : Option Int
  duration : Option Int
  seqNum : Option Int
  isFault : Option Bool
  cores : Option String
  deriving DecidableEq, Repr

/-- One data row of the workload CSV: the cell strings of the six columns. -/
structure CsvRow where
  args : String
  cores : String
  duration : String
  isFault : String
  seqNum : String
  timestamp : String
  deriving DecidableEq, Repr

/-- Cell produced for a string-typed attribute: `task_to_dict` keeps the
value, `_trim_none_values` drops `None` entries, and `csv.DictWriter` writes
dropped keys as `restval = NONE_VALUE`. -/
def cellOfStr (v : Option String) : String :=
  match v with
  | none => NONE_VALUE
  | some s => s

/-- Cell produced for an int-typed attribute (stringified by the writer). -/
def cellOfInt (v : Option Int) : String :=
  match v with
  | none => NONE_VALUE
  | some i => pyStrOfInt i

/-- Cell produced for the bool-typed attribute. -/
def cellOfBool (v : Option Bool) : String :=
  match v with
  | none => NONE_VALUE
  | some b => pyStrOfBool b

/-- Model of `CSVWriter.write_entry(entry)` (writer.py lines 111-131):
`task_to_dict`, `_trim_none_values`, then one `csv.DictWriter.writerow`. -/
def write_entry (t : Task) : CsvRow :=
  { args := cellOfStr t.args,
    cores := cellOfStr t.cores,
    duration := cellOfInt t.duration,
    isFault := cellOfBool t.isFault,
    seqNum := cellOfInt t.seqNum,
    timestamp := cellOfInt t.timestamp }

/-- Per-cell treatment of `CSVReader.read_entry` before `dict_to_task`:
`value.strip()` followed by `_resolve_none_entries` (a value equal to
`CSVWriter.NONE_VALUE` becomes `None`). -/
def resolveCell (c : String) : Option String :=
  let c2 := pyStrip c
  if c2 = NONE_VALUE then none else some c2

/-- Conversion of a resolved cell by `dict_to_task` for an int-typed
attribute: `None` stays `None`, anything else goes through `int(...)`; the
outer `none` is the uncaught `ValueError` of a malformed cell. -/
def convInt (o : Option String) : Option (Option Int) :=
  match o with
  | none => some none
  | some s2 => (pyIntOfString s2).map (fun i => some i)

/-- Model of `CSVReader.read_entry` (reader.py lines 106-130) on a data row:
strip every cell, resolve `None` markers, and convert through
`Task.dict_to_task` (str fields are kept as strings, int fields go through
`int(...)`, the bool field becomes `entry[a] == 'True'`).  The result is
`none` when an int conversion raises. -/
def read_entry (r : CsvRow) : Option Task :=
  match convInt (resolveCell r.timestamp), convInt (resolveCell r.duration),
      convInt (resolveCell r.seqNum) with
  | some ts, some dur, some sq =>
      some { args := resolveCell r.args,
             timestamp := ts,
             duration := dur,
             seqNum := sq,
             isFault := (resolveCell r.isFault).map (fun s => s = "True"),
             cores := resolveCell r.cores }
  | _, _, _ => none

/-- Cleanliness condition on a string value under which the CSV round trip
can be exact: the reader strips every cell and maps the literal text
`None` to the `None` value, so only strip-invariant strings different from
`"None"` survive unchanged. -/
def cleanStr (v : Option String) : Prop :=
  match v with
  | none => True
  | some s => pyStrip s = s ∧ s ≠ NONE_VALUE

instance (v : Option String) : Decidable (cleanStr v) := by
  unfold cleanStr; cases v <;> infer_instance

/-! ## Theorems -/

/-- C8: calling `pop_msg_queue` with `blocking=False` on a `MessageEntity`
whose inbound queue is empty returns the pair `(None, None)` and leaves the
inbound queue empty. -/
theorem pop_empty_nonblocking {α : Type} (st : InQueueState α)
    (h : st.inputQueue = []) :
    ∃ st2, pop_msg_queue st false = some ((none, none), st2) ∧
      st2.inputQueue = [] := by
  rcases st with ⟨q, sem⟩
  simp only at h
  subst h
  unfold pop_msg_queue semAcquire
  by_cases hs : 0 < sem <;> simp [hs]

/-- Witness for C8 at the empty queue with a zero semaphore. -/
theorem pop_empty_nonblocking_witness :
    (InQueueState.mk (α := Nat) [] 0).inputQueue = [] ∧
    ∃ st2, pop_msg_queue (InQueueState.mk (α := Nat) [] 0) false =
        some ((none, none), st2) ∧ st2.inputQueue = [] :=
  ⟨rfl, pop_empty_nonblocking (InQueueState.mk [] 0) rfl⟩

/-- C9: calling `submit_task` on a `ThreadPool` that is terminating or has
not been initialized leaves the task queue and its counting semaphore
unchanged — the submitted task is never enqueued. -/
theorem submit_task_refused {τ : Type} (st : ThreadPoolState τ) (t : τ)
    (h : st.terminating = true ∨ st.initialized = false) :
    submit_task st t = st ∧
    (submit_task st t).queue = st.queue ∧
    (submit_task st t).queueSem = st.queueSem := by
  have he : submit_task st t = st := by
    unfold submit_task
    rcases h with h | h <;> simp [h]
  exact ⟨he, by rw [he], by rw [he]⟩

/-- Witness for C9 at a terminating pool. -/
theorem submit_task_refused_witness :
    ((ThreadPoolState.mk (τ := Nat) [] 0 true true).terminating = true ∨
      (ThreadPoolState.mk (τ := Nat) [] 0 true true).initialized = false) ∧
    (submit_task (ThreadPoolState.mk (τ := Nat) [] 0 true true) 7 =
        ThreadPoolState.mk [] 0 true true ∧
      (submit_task (ThreadPoolState.mk (τ := Nat) [] 0 true true) 7).queue =
        (ThreadPoolState.mk (τ := Nat) [] 0 true true).queue ∧
      (submit_task (ThreadPoolState.mk (τ := Nat) [] 0 true true) 7).queueSem =
        (ThreadPoolState.mk (τ := Nat) [] 0 true true).queueSem) :=
  ⟨Or.inl rfl, submit_task_refused (ThreadPoolState.mk [] 0 true true) 7
    (Or.inl rfl)⟩

/-- C2: whenever the engine's current master address is set and still among
the registered hosts, a START-SESSION arriving from a different address is
answered with `ack_no` and leaves the stored master address, session
timestamp and thread pool unchanged; and the engine has at most one master
address at any time. -/
theorem single_master_rejects_foreign_start (st : EngineState) (reSend : Bool)
    (hosts : List Addr) (addr m : Addr) (ts : Int)
    (hm : st.master = some m) (hreg : m ∈ hosts) (hne : addr ≠ m) :
    update_session st reSend hosts addr (.startSession ts) =
      (st, { positive := false, error := none }, []) ∧
    (∀ a b : Addr, st.master = some a → st.master = some b → a = b) := by
  constructor
  · have hcond : ¬(st.master = none ∨ masterNotIn st.master hosts = true ∨
        st.master = some addr) := by
      push_neg
      refine ⟨by simp [hm], by simp [masterNotIn, hm, hreg], ?_⟩
      rw [hm]
      exact fun he => hne (Option.some.inj he).symm
    simp only [update_session]
    rw [if_neg hcond]
  · intro a b ha hb
    rw [ha] at hb
    exact Option.some.inj hb

/-- Witness for C2: a registered master rejects a START-SESSION from a second
controller. -/
theorem single_master_rejects_foreign_start_witness :
    ((EngineState.mk (some ("10.0.0.1", "50000")) 5).master =
        some ("10.0.0.1", "50000") ∧
      ("10.0.0.1", "50000") ∈ [(("10.0.0.1", "50000") : Addr)] ∧
      (("10.0.0.2", "50001") : Addr) ≠ ("10.0.0.1", "50000")) ∧
    (update_session (EngineState.mk (some ("10.0.0.1", "50000")) 5) true
        [("10.0.0.1", "50000")] ("10.0.0.2", "50001") (.startSession 9) =
      (EngineState.mk (some ("10.0.0.1", "50000")) 5,
        { positive := false, error := none }, []) ∧
    (∀ a b : Addr, (EngineState.mk (some ("10.0.0.1", "50000")) 5).master =
        some a → (EngineState.mk (some ("10.0.0.1", "50000")) 5).master =
        some b → a = b)) :=
  ⟨⟨rfl, by decide, by decide⟩,
    single_master_rejects_foreign_start (EngineState.mk
      (some ("10.0.0.1", "50000")) 5) true [("10.0.0.1", "50000")]
      ("10.0.0.2", "50001") ("10.0.0.1", "50000") 9 rfl (by decide) (by decide)⟩

/-- C6: on a CORRECT-TIME request with remote virtual timestamp `t`, the pool
computes `t_local = now - session_start_abs + session_start` and updates its
correction factor to `correction + 0.1 * (t - t_local - correction)` exactly
when `|t - t_local - correction| > 60`; otherwise nothing changes. -/
theorem correct_time_threshold (st : PoolClock) (now t : ℚ) :
    (|t - (now - st.session_start_abs + st.session_start) -
        st.correction_factor| > 60 →
      correct_time st now t =
        { st with correction_factor := st.correction_factor +
            (1 / 10) * (t - (now - st.session_start_abs + st.session_start) -
              st.correction_factor) }) ∧
    (¬ |t - (now - st.session_start_abs + st.session_start) -
        st.correction_factor| > 60 →
      correct_time st now t = st) := by
  unfold correct_time CORRECTION_THRESHOLD
  constructor <;> intro h <;> simp [h]

/-- Witness for C6: a 100-second drift triggers the update, a 30-second
drift does not. -/
theorem correct_time_threshold_witness :
    (|(100 : ℚ) - ((0 : ℚ) - (0 : ℚ) + (0 : ℚ)) - (0 : ℚ)| > 60 ∧
      correct_time (PoolClock.mk 0 0 0) 0 100 =
        { PoolClock.mk 0 0 0 with correction_factor := (0 : ℚ) +
            (1 / 10) * ((100 : ℚ) - ((0 : ℚ) - (0 : ℚ) + (0 : ℚ)) - 0) }) ∧
    (¬ |(30 : ℚ) - ((0 : ℚ) - (0 : ℚ) + (0 : ℚ)) - (0 : ℚ)| > 60 ∧
      correct_time (PoolClock.mk 0 0 0) 0 30 = PoolClock.mk 0 0 0) :=
  ⟨⟨by norm_num, (correct_time_threshold (PoolClock.mk 0 0 0) 0 100).1
      (by norm_num)⟩,
    ⟨by norm_num, (correct_time_threshold (PoolClock.mk 0 0 0) 0 30).2
      (by norm_num)⟩⟩

/-- C5: evaluation of the expired-task path at a failing input.  With
`skip_expired` set and a task five virtual seconds in the past, the worker
does return without spawning a subprocess, but it broadcasts nothing: the
`status_err` build inside `_process_result` passes six positional arguments
(thread_pool.py line 432) to the `(t, error, output=None)` signature of
`MessageBuilder.status_error` (msg_builder.py line 153), so `TypeError` is
raised before `broadcast_msg` and escapes `_execute_task` — the `status_err`
broadcast with `error = -1` that the claim (and the spec) require never
happens in this snapshot. -/
theorem expired_task_crashes :
    execute_task (PoolCfg.mk true true) (PoolClock.mk 0 0 0)
        (InjTask.mk "echo A" (-5) 2 0 false) 0 false true [] =
      some (.crashed [] 0) := by
  norm_num [execute_task, process_result, pyCallOk, status_error_sig,
    process_result_error_call_argc]

/-- C3: evaluation of `_execute_task` at the failing input.  With
`retry_tasks` set and a task of duration 10 whose subprocess would exit
after one second with return code 5, the worker spawns the subprocess once
and then crashes: `_inform_start` passes five positional arguments
(thread_pool.py line 419) to the single-parameter signature of
`MessageBuilder.status_start` (msg_builder.py line 131), raising `TypeError`
right after the first spawn.  Nothing is broadcast, the wait/retry loop is
never reached, and the spawned subprocess is left running unsupervised —
neither the claimed `status_err` with the real exit code nor any retry
decision involving `retryOnError` (which this pool does not even accept,
although its callers `InjectorEngine.build` and `fault_injector_server.py`
pass it to the constructor) ever takes place. -/
theorem retry_path_unreachable :
    execute_task (PoolCfg.mk true true) (PoolClock.mk 0 0 0)
        (InjTask.mk "cmd" 0 10 0 false) 0 false true
        [.exits 1 5, .noExit] =
      some (.crashed [] 1) := by
  norm_num [execute_task, inform_start, pyCallOk, status_start_sig,
    inform_start_call_argc]

/-- Head-unfolding of `cfgGet`. -/
theorem cfgGet_cons (p : String × ConfigValue) (t : ConfigDict) (k : String) :
    cfgGet (p :: t) k = if p.1 = k then some p.2 else cfgGet t k := by
  by_cases h : p.1 = k <;> simp [cfgGet, List.find?_cons, h]

/-- Lookup after a single-key store, with Python dict semantics. -/
theorem cfgGet_cfgSet (d : ConfigDict) (k : String) (v : ConfigValue)
    (k2 : String) :
    cfgGet (cfgSet d k v) k2 = if k2 = k then some v else cfgGet d k2 := by
  induction d with
  | nil =>
      rw [show cfgSet [] k v = [(k, v)] from rfl, cfgGet_cons]
      by_cases h : k2 = k
      · simp [h]
      · rw [if_neg h, if_neg (fun he => h (Eq.symm he))]
  | cons p t ih =>
      by_cases hp : p.1 = k
      · rw [show cfgSet (p :: t) k v = (k, v) :: t from by simp [cfgSet, hp],
          cfgGet_cons, cfgGet_cons]
        by_cases h : k2 = k
        · simp [h]
        · have h1 : ¬ k = k2 := fun he => h he.symm
          have h2 : ¬ p.1 = k2 := by rw [hp]; exact h1
          simp [h1, h2, h]
      · rw [show cfgSet (p :: t) k v = p :: cfgSet t k v from by
          simp [cfgSet, hp], cfgGet_cons, cfgGet_cons, ih]
        by_cases h : p.1 = k2
        · have hk : ¬ k2 = k := fun he => hp (by rw [h, he])
          simp [h, hk]
        · simp [h]

/-- Keys present in the base dictionary survive a `dict.update`. -/
theorem cfgGet_isSome_cfgUpdate (upd : ConfigDict) (base : ConfigDict)
    (k : String) (h : (cfgGet base k).isSome) :
    (cfgGet (cfgUpdate base upd) k).isSome := by
  induction upd generalizing base with
  | nil => exact h
  | cons p t ih =>
      simp only [cfgUpdate, List.foldl_cons]
      refine ih (cfgSet base p.1 p.2) ?_
      rw [cfgGet_cfgSet]
      by_cases hk : k = p.1 <;> simp [hk, h]

/-- Keys absent from the update dictionary keep their base binding. -/
theorem cfgGet_cfgUpdate_of_not_mem (upd : ConfigDict) (base : ConfigDict)
    (k : String) (h : cfgGet upd k = none) :
    cfgGet (cfgUpdate base upd) k = cfgGet base k := by
  induction upd generalizing base with
  | nil => rfl
  | cons p t ih =>
      rw [cfgGet_cons] at h
      by_cases hp : p.1 = k
      · rw [if_pos hp] at h
        exact absurd h (by simp)
      · rw [if_neg hp] at h
        simp only [cfgUpdate, List.foldl_cons]
        have step : cfgUpdate (cfgSet base p.1 p.2) t =
            List.foldl (fun d q => cfgSet d q.1 q.2) (cfgSet base p.1 p.2) t :=
          rfl
        rw [← step, ih (cfgSet base p.1 p.2) h, cfgGet_cfgSet]
        rw [if_neg (fun he => hp he.symm)]

/-- C10: `ConfigLoader.getConfig` always returns a dictionary containing
every key of the built-in default table; keys not overridden by the supplied
file keep their default values, and when no file is given or the file is
missing or not valid JSON the result is exactly the default table. -/
theorem getConfig_defaults :
    (∀ (f : ConfigFile) (k : String), (cfgGet dfl_config k).isSome →
      (cfgGet (getConfig f) k).isSome) ∧
    (∀ (upd : ConfigDict) (k : String), cfgGet upd k = none →
      cfgGet (getConfig (.objFile upd)) k = cfgGet dfl_config k) ∧
    getConfig .noFile = dfl_config ∧ getConfig .badFile = dfl_config := by
  refine ⟨?_, ?_, rfl, rfl⟩
  · intro f k h
    cases f with
    | noFile => exact h
    | badFile => exact h
    | objFile entries => exact cfgGet_isSome_cfgUpdate entries dfl_config k h
  · intro upd k h
    exact cfgGet_cfgUpdate_of_not_mem upd dfl_config k h

/-- Witness for C10: a file overriding `HOSTS` leaves `SERVER_PORT` at its
default, and every default key stays present. -/
theorem getConfig_defaults_witness :
    (cfgGet dfl_config "SERVER_PORT").isSome ∧
    (cfgGet (getConfig (.objFile [("HOSTS", .strList ["a:1"])]))
      "SERVER_PORT").isSome ∧
    cfgGet [(("HOSTS" : String), ConfigValue.strList ["a:1"])]
      "SERVER_PORT" = none ∧
    cfgGet (getConfig (.objFile [("HOSTS", .strList ["a:1"])])) "SERVER_PORT" =
      cfgGet dfl_config "SERVER_PORT" :=
  ⟨by decide, getConfig_defaults.1 (.objFile [("HOSTS", .strList ["a:1"])])
      "SERVER_PORT" (by decide), by decide,
    getConfig_defaults.2.1 [("HOSTS", .strList ["a:1"])] "SERVER_PORT"
      (by decide)⟩

/-- Transitivity of the lexicographic order on sequence pairs. -/
theorem lexLt_trans {p q r : Nat × Nat} (h1 : lexLt p q) (h2 : lexLt q r) :
    lexLt p r := by
  unfold lexLt at h1 h2 ⊢
  omega

/-- A strict step followed by a non-strict one stays strict. -/
theorem lexLt_of_lexLt_of_lexLe {p q r : Nat × Nat} (h1 : lexLt p q)
    (h2 : lexLe q r) : lexLt p r := by
  rcases h2 with h2 | rfl
  · exact lexLt_trans h1 h2
  · exact h1

/-- The bumped counter stays below the wrap limit. -/
theorem bumpSeq_num_lt (clock : Nat) (c : SeqCounter) :
    (bumpSeq clock c).num < seqNumLim := by
  unfold bumpSeq
  exact Nat.mod_lt _ (by norm_num [seqNumLim])

/-- One counter advance strictly increases the stamped pair, provided the
wall clock has moved past the session timestamp whenever the counter wraps. -/
theorem lexLt_bumpSeq (clock : Nat) (c : SeqCounter)
    (hnum : c.num < seqNumLim)
    (hw : (c.num + 1) % seqNumLim = 0 → c.ts < clock) :
    lexLt (seqPair c) (seqPair (bumpSeq clock c)) := by
  simp only [bumpSeq, seqPair, lexLt]
  by_cases h0 : (c.num + 1) % seqNumLim = 0
  · simp only [h0]
    exact Or.inl (hw h0)
  · have hlt : c.num + 1 < seqNumLim := by
      rcases Nat.lt_or_ge (c.num + 1) seqNumLim with h | h
      · exact h
      · have he : c.num + 1 = seqNumLim := by omega
        rw [he, Nat.mod_self] at h0
        exact absurd rfl h0
    have hmod : (c.num + 1) % seqNumLim = c.num + 1 := Nat.mod_eq_of_lt hlt
    simp only [hmod]
    rw [if_neg (by omega : ¬ c.num + 1 = 0)]
    omega

/-- The pairs assigned along a run are strictly increasing and bounded below
by the initial stamp. -/
theorem assignedPairs_mono {α : Type} (evs : List (OutItem α × Nat))
    (c : SeqCounter) (hnum : c.num < seqNumLim) (hsafe : wrapSafe c evs) :
    List.Pairwise lexLt (assignedPairs c evs) ∧
    ∀ p ∈ assignedPairs c evs, lexLe (seqPair c) p := by
  induction evs generalizing c with
  | nil => exact ⟨List.Pairwise.nil, by intro p hp; cases hp⟩
  | cons ev rest ih =>
      obtain ⟨it, clk⟩ := ev
      cases it with
      | toRemove a =>
          have h1 : assignedPairs c ((OutItem.toRemove a, clk) :: rest) =
              assignedPairs c rest := rfl
          have h2 : wrapSafe c ((OutItem.toRemove a, clk) :: rest) =
              wrapSafe c rest := rfl
          rw [h1]
          exact ih c hnum (h2 ▸ hsafe)
      | msg a m =>
          have h1 : assignedPairs c ((OutItem.msg a m, clk) :: rest) =
              seqPair c :: assignedPairs (bumpSeq clk c) rest := rfl
          have h2 : wrapSafe c ((OutItem.msg a m, clk) :: rest) =
              (((c.num + 1) % seqNumLim = 0 → c.ts < clk) ∧
                wrapSafe (bumpSeq clk c) rest) := rfl
          rw [h1]
          obtain ⟨hw, hrest⟩ := h2 ▸ hsafe
          obtain ⟨hp, hall⟩ := ih (bumpSeq clk c) (bumpSeq_num_lt clk c) hrest
          have hstep : lexLt (seqPair c) (seqPair (bumpSeq clk c)) :=
            lexLt_bumpSeq clk c hnum hw
          constructor
          · exact List.Pairwise.cons
              (fun q hq => lexLt_of_lexLt_of_lexLe hstep (hall q hq)) hp
          · intro p hp2
            rcases List.mem_cons.mp hp2 with rfl | hmem
            · exact Or.inr rfl
            · exact Or.inl (lexLt_of_lexLt_of_lexLe hstep (hall p hmem))

/-- Every frame emitted while processing one queue item carries the pair the
counter held when the item was popped; in particular, every recipient of a
broadcast receives the same `(sessionTs, seqNum)` pair. -/
theorem flushItem_frames_seq {α : Type} (reSend : Bool) (ok : Addr → Bool)
    (clk : Nat) (st : FlushState α) (it : OutItem α) :
    ∀ f ∈ (flushItem reSend ok clk st it).2, f.seq = seqPair st.counter := by
  cases it with
  | toRemove a => intro f hf; cases hf
  | msg a m =>
      intro f hf
      simp only [flushItem] at hf
      by_cases hb : isBroadcast a
      · rw [if_pos hb] at hf
        obtain ⟨h, _, rfl⟩ := List.mem_map.mp hf
        rfl
      · rw [if_neg hb] at hf
        by_cases hm : a ∈ st.hosts ∧ ok a = true
        · rw [if_pos hm] at hf
          rcases List.mem_singleton.mp hf with rfl
          rfl
        · rw [if_neg hm] at hf
          cases hf

/-- Processing one queue item advances the counter exactly like
`counterStep`. -/
theorem flushItem_counter {α : Type} (reSend : Bool) (ok : Addr → Bool)
    (clk : Nat) (st : FlushState α) (it : OutItem α) :
    (flushItem reSend ok clk st it).1.counter = counterStep st.counter (it, clk) := by
  cases it with
  | toRemove a => rfl
  | msg a m =>
      simp only [flushItem, counterStep]
      by_cases hb : isBroadcast a
      · rw [if_pos hb]
      · rw [if_neg hb]
        by_cases hm : a ∈ st.hosts ∧ ok a = true
        · rw [if_pos hm]
        · rw [if_neg hm]

/-- Every frame produced by a run of the flush loop is stamped with one of
the pairs assigned along that run. -/
theorem flushRun_frames_seq {α : Type} (reSend : Bool) (ok : Addr → Bool)
    (evs : List (OutItem α × Nat)) (st : FlushState α) :
    ∀ f ∈ (flushRun reSend ok st evs).2,
      f.seq ∈ assignedPairs st.counter evs := by
  induction evs generalizing st with
  | nil => intro f hf; cases hf
  | cons ev rest ih =>
      obtain ⟨it, clk⟩ := ev
      intro f hf
      have hrun : flushRun reSend ok st ((it, clk) :: rest) =
          ((flushRun reSend ok (flushItem reSend ok clk st it).1 rest).1,
            (flushItem reSend ok clk st it).2 ++
              (flushRun reSend ok (flushItem reSend ok clk st it).1 rest).2) :=
        rfl
      rw [hrun] at hf
      rcases List.mem_append.mp hf with hf1 | hf2
      · have hseq := flushItem_frames_seq reSend ok clk st it f hf1
        cases it with
        | toRemove a => cases hf1
        | msg a m =>
            rw [show assignedPairs st.counter ((OutItem.msg a m, clk) :: rest) =
              seqPair st.counter ::
                assignedPairs (bumpSeq clk st.counter) rest from rfl]
            exact hseq ▸ List.mem_cons_self _ _
      · have hmem := ih (flushItem reSend ok clk st it).1 f hf2
        rw [flushItem_counter] at hmem
        cases it with
        | toRemove a => exact hmem
        | msg a m =>
            rw [show assignedPairs st.counter ((OutItem.msg a m, clk) :: rest) =
              seqPair st.counter ::
                assignedPairs (bumpSeq clk st.counter) rest from rfl]
            exact List.mem_cons_of_mem _ hmem

/-- C1: outbound frames of a `MessageEntity` are stamped from the single
per-entity counter: every frame of a flush run carries one of the pairs
assigned along the run, a broadcast uses one pair for every recipient, and
the pairs assigned to successive messages are strictly increasing in
lexicographic order — provided the wall clock has moved strictly past the
stored session timestamp whenever the counter wraps (`wrapSafe`), which is
how `sessionTs` refreshing keeps the pair monotonic. -/
theorem seq_policy_monotone {α : Type} (evs : List (OutItem α × Nat))
    (c : SeqCounter) (hnum : c.num < seqNumLim) (hsafe : wrapSafe c evs) :
    List.Pairwise lexLt (assignedPairs c evs) ∧
    (∀ (reSend : Bool) (ok : Addr → Bool) (st : FlushState α),
      st.counter = c →
      ∀ f ∈ (flushRun reSend ok st evs).2, f.seq ∈ assignedPairs c evs) ∧
    (∀ (reSend : Bool) (ok : Addr → Bool) (clk : Nat) (st : FlushState α)
      (a : Addr) (m : α), isBroadcast a = true →
      (flushItem reSend ok clk st (.msg a m)).2 =
        (st.hosts.filter (fun h => ok h)).map
          (fun h => Framed.mk (seqPair st.counter) h m)) := by
  refine ⟨(assignedPairs_mono evs c hnum hsafe).1, ?_, ?_⟩
  · intro reSend ok st hst f hf
    have := flushRun_frames_seq reSend ok evs st f hf
    rwa [hst] at this
  · intro reSend ok clk st a m hb
    simp only [flushItem]
    rw [if_pos hb]

/-- Witness for C1: two broadcast messages dispatched across the wraparound
at 4000000000 produce strictly increasing pairs, with the session timestamp
refreshed from the wall clock. -/
theorem seq_policy_monotone_witness :
    ((SeqCounter.mk 100 3999999999).num < seqNumLim ∧
      wrapSafe (α := Nat) (SeqCounter.mk 100 3999999999)
        [(OutItem.msg broadcastAddr 1, 150), (OutItem.msg broadcastAddr 2, 151)]) ∧
    (List.Pairwise lexLt (assignedPairs (α := Nat)
        (SeqCounter.mk 100 3999999999)
        [(OutItem.msg broadcastAddr 1, 150),
          (OutItem.msg broadcastAddr 2, 151)]) ∧
      (∀ (reSend : Bool) (ok : Addr → Bool) (st : FlushState Nat),
        st.counter = SeqCounter.mk 100 3999999999 →
        ∀ f ∈ (flushRun reSend ok st
            [(OutItem.msg broadcastAddr 1, 150),
              (OutItem.msg broadcastAddr 2, 151)]).2,
          f.seq ∈ assignedPairs (SeqCounter.mk 100 3999999999)
            [(OutItem.msg broadcastAddr 1, 150),
              (OutItem.msg broadcastAddr 2, 151)]) ∧
      (∀ (reSend : Bool) (ok : Addr → Bool) (clk : Nat) (st : FlushState Nat)
        (a : Addr) (m : Nat), isBroadcast a = true →
        (flushItem reSend ok clk st (.msg a m)).2 =
          (st.hosts.filter (fun h => ok h)).map
            (fun h => Framed.mk (seqPair st.counter) h m))) :=
  ⟨⟨by decide, ⟨by decide, by decide, trivial⟩⟩,
    seq_policy_monotone
      [(OutItem.msg broadcastAddr 1, 150), (OutItem.msg broadcastAddr 2, 151)]
      (SeqCounter.mk 100 3999999999) (by decide)
      ⟨by decide, by decide, trivial⟩⟩

/-- Counterexample for C4 as stated: with replay enabled, a zero-length
forwarding request carrying `(100, 0)` against a history holding a broadcast
entry stamped `(100, 5)` does re-enqueue that entry to the requesting peer,
but the frame then sent is stamped `(100, 7)` — the counter's current pair —
and not the historical `(100, 5)`. -/
theorem replay_restamps_counterexample :
    serverHandleRecv (α := Nat) true ("10.0.0.2", "40000") none
        (some (100, 0)) = .replay (100, 0) ("10.0.0.2", "40000") ∧
    forwardOldMsgs (α := Nat) [((100, 5), broadcastAddr, 42)] (100, 0)
        ("10.0.0.2", "40000") = [(("10.0.0.2", "40000"), 42)] ∧
    (flushRun true (fun _ => true)
        (FlushState.mk (SeqCounter.mk 100 7) [("10.0.0.2", "40000")]
          [((100, 5), broadcastAddr, 42)])
        [(OutItem.msg ("10.0.0.2", "40000") 42, 200)]).2 =
      [Framed.mk (100, 7) ("10.0.0.2", "40000") 42] ∧
    ¬ ((100, 7) : Nat × Nat) = ((100, 5) : Nat × Nat) := by
  refine ⟨rfl, ?_, ?_, by decide⟩ <;> decide

/-- C4 (amended): on a zero-length forwarding request carrying `s`, the
server with replay enabled calls the replay routine for the requesting peer;
the routine re-enqueues exactly those history entries whose stored sequence
pair is lexicographically greater than `s` and whose original destination
was the broadcast identifier; and every frame subsequently sent for a
re-enqueued message is stamped with the counter's current pair at flush
time, not with the historical pair. -/
theorem replay_selection_and_restamp {α : Type} :
    (∀ (peer : Addr) (s : Nat × Nat),
      serverHandleRecv (α := α) true peer none (some s) = .replay s peer) ∧
    (∀ (hist : List ((Nat × Nat) × Addr × α)) (s : Nat × Nat) (peer : Addr),
      forwardOldMsgs hist s peer =
        (hist.filter (fun e => decide (lexLt s e.1) && isBroadcast e.2.1)).map
          (fun e => (peer, e.2.2))) ∧
    (∀ (reSend : Bool) (ok : Addr → Bool) (clk : Nat) (st : FlushState α)
      (a : Addr) (m : α),
      ∀ f ∈ (flushItem reSend ok clk st (.msg a m)).2,
        f.seq = seqPair st.counter) := by
  refine ⟨fun peer s => rfl, ?_, ?_⟩
  · intro hist s peer
    induction hist with
    | nil => rfl
    | cons e t ih =>
        have hd : forwardOldMsgs (e :: t) s peer =
            if lexLt s e.1 ∧ isBroadcast e.2.1 then
              (peer, e.2.2) :: forwardOldMsgs t s peer
            else forwardOldMsgs t s peer := rfl
        rw [hd]
        by_cases h1 : lexLt s e.1 <;> by_cases h2 : isBroadcast e.2.1 <;>
          simp [List.filter_cons, h1, h2, ih]
  · intro reSend ok clk st a m
    exact flushItem_frames_seq reSend ok clk st (.msg a m)

/-- Witness for C4 (amended), at a two-entry history (one broadcast entry
beyond the requested pair, one unicast entry) and a unicast flush step. -/
theorem replay_selection_and_restamp_witness :
    serverHandleRecv (α := Nat) true ("10.0.0.2", "40000") none
        (some (100, 0)) = .replay (100, 0) ("10.0.0.2", "40000") ∧
    forwardOldMsgs (α := Nat)
        [((100, 5), broadcastAddr, 42), ((100, 6), ("10.0.0.3", "1"), 43)]
        (100, 0) ("10.0.0.2", "40000") =
      ([((100, 5), broadcastAddr, 42),
          ((100, 6), (("10.0.0.3", "1") : Addr), 43)].filter
        (fun e => decide (lexLt (100, 0) e.1) && isBroadcast e.2.1)).map
        (fun e => ((("10.0.0.2", "40000") : Addr), e.2.2)) ∧
    Framed.mk (100, 7) (("10.0.0.2", "40000") : Addr) 42 ∈
      (flushItem true (fun _ => true) 200
        (FlushState.mk (SeqCounter.mk 100 7) [("10.0.0.2", "40000")] [])
        (.msg ("10.0.0.2", "40000") 42)).2 ∧
    (Framed.mk (100, 7) (("10.0.0.2", "40000") : Addr) 42).seq =
      seqPair (SeqCounter.mk 100 7) :=
  ⟨(replay_selection_and_restamp (α := Nat)).1 ("10.0.0.2", "40000") (100, 0),
    (replay_selection_and_restamp (α := Nat)).2.1
      [((100, 5), broadcastAddr, 42), ((100, 6), ("10.0.0.3", "1"), 43)]
      (100, 0) ("10.0.0.2", "40000"),
    by decide,
    (replay_selection_and_restamp (α := Nat)).2.2 true (fun _ => true) 200
      (FlushState.mk (SeqCounter.mk 100 7) [("10.0.0.2", "40000")] [])
      ("10.0.0.2", "40000") 42
      (Framed.mk (100, 7) ("10.0.0.2", "40000") 42) (by decide)⟩

/-- Decoding a digit character recovers the digit. -/
theorem charDigit_digitChar (d : Nat) (h : d < 10) :
    charDigit (digitChar d) = some d := by
  interval_cases d <;> rfl

/-- Digit characters are not whitespace. -/
theorem digitChar_not_ws (d : Nat) (h : d < 10) :
    isPyWs (digitChar d) = false := by
  interval_cases d <;> rfl

/-- Digit characters are distinct from the sign characters and from the
initial letter of the `None` marker. -/
theorem digitChar_ne (d : Nat) (h : d < 10) :
    digitChar d ≠ '-' ∧ digitChar d ≠ '+' ∧ digitChar d ≠ 'N' := by
  interval_cases d <;> exact ⟨by decide, by decide, by decide⟩

/-- All entries of the fuelled digit expansion are below ten, when the fuel
dominates the number. -/
theorem natDigitsLEAux_lt_ten (fuel : Nat) : ∀ n, n ≤ fuel →
    ∀ d ∈ natDigitsLEAux fuel n, d < 10 := by
  induction fuel with
  | zero =>
      intro n hn d hd
      have h0 : n = 0 := Nat.le_zero.mp hn
      rcases List.mem_singleton.mp hd with rfl
      omega
  | succ f ih =>
      intro n hn d hd
      by_cases h : n < 10
      · rw [show natDigitsLEAux (f + 1) n = [n] from by
          simp [natDigitsLEAux, h]] at hd
        rcases List.mem_singleton.mp hd with rfl
        exact h
      · rw [show natDigitsLEAux (f + 1) n =
            (n % 10) :: natDigitsLEAux f (n / 10) from by
          simp [natDigitsLEAux, h]] at hd
        rcases List.mem_cons.mp hd with rfl | hmem
        · exact Nat.mod_lt _ (by omega)
        · have hfuel : n / 10 ≤ f := by
            have hlt : n / 10 < n := Nat.div_lt_self (by omega) (by omega)
            omega
          exact ih (n / 10) hfuel d hmem

/-- All entries of the digit expansion are below ten. -/
theorem natDigitsLE_lt_ten (n : Nat) : ∀ d ∈ natDigitsLE n, d < 10 :=
  natDigitsLEAux_lt_ten n n (Nat.le_refl n)

/-- The fuelled digit expansion is never empty. -/
theorem natDigitsLEAux_ne_nil (fuel n : Nat) : natDigitsLEAux fuel n ≠ [] := by
  cases fuel with
  | zero => simp [natDigitsLEAux]
  | succ f =>
      by_cases h : n < 10 <;> simp [natDigitsLEAux, h]

/-- The digit expansion is never empty. -/
theorem natDigitsLE_ne_nil (n : Nat) : natDigitsLE n ≠ [] :=
  natDigitsLEAux_ne_nil n n

/-- Folding the big-endian fuelled digits back recovers the number, when the
fuel dominates the number. -/
theorem foldl_natDigitsLEAux (fuel : Nat) : ∀ n, n ≤ fuel →
    ((natDigitsLEAux fuel n).reverse).foldl (fun a d => a * 10 + d) 0 = n := by
  induction fuel with
  | zero =>
      intro n hn
      have h0 : n = 0 := Nat.le_zero.mp hn
      subst h0
      rfl
  | succ f ih =>
      intro n hn
      by_cases h : n < 10
      · rw [show natDigitsLEAux (f + 1) n = [n] from by
          simp [natDigitsLEAux, h]]
        simp
      · rw [show natDigitsLEAux (f + 1) n =
            (n % 10) :: natDigitsLEAux f (n / 10) from by
          simp [natDigitsLEAux, h]]
        have hfuel : n / 10 ≤ f := by
          have hlt : n / 10 < n := Nat.div_lt_self (by omega) (by omega)
          omega
        rw [List.reverse_cons, List.foldl_append, ih (n / 10) hfuel]
        simp only [List.foldl_cons, List.foldl_nil]
        omega

/-- Folding the big-endian digits back recovers the number. -/
theorem foldl_natDigitsLE (n : Nat) :
    ((natDigitsLE n).reverse).foldl (fun a d => a * 10 + d) 0 = n :=
  foldl_natDigitsLEAux n n (Nat.le_refl n)

/-- Evaluating the rendering of an all-digit list succeeds and folds the
digits. -/
theorem digitsValAux_map (l : List Nat) (acc : Nat) (h : ∀ d ∈ l, d < 10) :
    digitsValAux acc (l.map digitChar) =
      some (l.foldl (fun a d => a * 10 + d) acc) := by
  induction l generalizing acc with
  | nil => rfl
  | cons d t ih =>
      simp only [List.map_cons, digitsValAux,
        charDigit_digitChar d (h d (List.mem_cons_self d t)),
        List.foldl_cons]
      exact ih (acc * 10 + d) (fun x hx => h x (List.mem_cons_of_mem d hx))

/-- Parsing the decimal rendering of a natural number recovers it. -/
theorem digitsVal_render (n : Nat) :
    digitsVal ((natDigitsLE n).reverse.map digitChar) = some n := by
  have hval := digitsValAux_map ((natDigitsLE n).reverse) 0
    (fun d hd => natDigitsLE_lt_ten n d (List.mem_reverse.mp hd))
  rw [foldl_natDigitsLE] at hval
  cases hl : (natDigitsLE n).reverse.map digitChar with
  | nil =>
      exact absurd (List.reverse_eq_nil_iff.mp (List.map_eq_nil_iff.mp hl))
        (natDigitsLE_ne_nil n)
  | cons c t =>
      rw [hl] at hval
      show digitsVal (c :: t) = some n
      exact hval

/-- The character list of the natural rendering starts with a digit. -/
theorem pyStrOfNat_toList (n : Nat) :
    ∃ d t, (pyStrOfNat n).toList = digitChar d :: t ∧ d < 10 := by
  cases hrev : (natDigitsLE n).reverse with
  | nil =>
      exact absurd (List.reverse_eq_nil_iff.mp hrev) (natDigitsLE_ne_nil n)
  | cons d t =>
      refine ⟨d, t.map digitChar, ?_, ?_⟩
      · show ((natDigitsLE n).reverse.map digitChar) = _
        rw [hrev, List.map_cons]
      · exact natDigitsLE_lt_ten n d
          (List.mem_reverse.mp (hrev ▸ List.mem_cons_self d t))

/-- Parsing the Python rendering of a natural number as an integer. -/
theorem pyIntOfString_pyStrOfNat (n : Nat) :
    pyIntOfString (pyStrOfNat n) = some (n : Int) := by
  obtain ⟨d, t, hl, hd⟩ := pyStrOfNat_toList n
  obtain ⟨hne1, hne2, _⟩ := digitChar_ne d hd
  have hv : digitsVal (digitChar d :: t) = some n := by
    rw [← hl]
    exact digitsVal_render n
  unfold pyIntOfString
  rw [hl]
  show (if digitChar d = '-' then _ else _) = some (n : Int)
  rw [if_neg hne1]
  show (if digitChar d = '+' then _ else _) = some (n : Int)
  rw [if_neg hne2]
  show (match digitsVal (digitChar d :: t) with
    | none => none
    | some k => some ((k : Int))) = some (n : Int)
  rw [hv]

/-- Parsing the Python rendering of an integer recovers it. -/
theorem pyIntOfString_pyStrOfInt (i : Int) :
    pyIntOfString (pyStrOfInt i) = some i := by
  unfold pyStrOfInt
  by_cases h : i < 0
  · rw [if_pos h]
    obtain ⟨d, t, hl, hd⟩ := pyStrOfNat_toList i.natAbs
    have hv : digitsVal (digitChar d :: t) = some i.natAbs := by
      rw [← hl]
      exact digitsVal_render i.natAbs
    have hl2 : ("-" ++ pyStrOfNat i.natAbs).toList =
        '-' :: (pyStrOfNat i.natAbs).toList := rfl
    unfold pyIntOfString
    rw [hl2, hl]
    show (if ('-' : Char) = '-' then _ else _) = some i
    rw [if_pos rfl, hv]
    show some (-(i.natAbs : Int)) = some i
    congr 1
    omega
  · rw [if_neg h]
    rw [pyIntOfString_pyStrOfNat]
    congr 1
    omega

/-- A string of non-whitespace characters is `strip`-invariant. -/
theorem pyStrip_of_no_ws (s : String)
    (h : ∀ c ∈ s.toList, isPyWs c = false) : pyStrip s = s := by
  have h1 : s.toList.dropWhile isPyWs = s.toList := by
    cases hl : s.toList with
    | nil => rfl
    | cons c t =>
        rw [List.dropWhile_cons, h c (hl ▸ List.mem_cons_self c t)]
        simp
  have h2 : s.toList.reverse.dropWhile isPyWs = s.toList.reverse := by
    cases hl : s.toList.reverse with
    | nil => rfl
    | cons c t =>
        have hmem : c ∈ s.toList :=
          List.mem_reverse.mp (hl ▸ List.mem_cons_self c t)
        rw [List.dropWhile_cons, h c hmem]
        simp
  show String.mk _ = s
  rw [h1, h2, List.reverse_reverse]
  rfl

/-- The integer rendering contains no whitespace. -/
theorem pyStrOfInt_no_ws (i : Int) :
    ∀ c ∈ (pyStrOfInt i).toList, isPyWs c = false := by
  have hnat : ∀ n : Nat, ∀ c ∈ (pyStrOfNat n).toList, isPyWs c = false := by
    intro n c hc
    obtain ⟨d, hd, rfl⟩ := List.mem_map.mp hc
    exact digitChar_not_ws d
      (natDigitsLE_lt_ten n d (List.mem_reverse.mp hd))
  unfold pyStrOfInt
  by_cases h : i < 0
  · rw [if_pos h]
    intro c hc
    rcases List.mem_cons.mp hc with rfl | hmem
    · rfl
    · exact hnat i.natAbs c hmem
  · rw [if_neg h]
    exact hnat i.toNat

/-- The integer rendering is never the `None` marker. -/
theorem pyStrOfInt_ne_none (i : Int) : pyStrOfInt i ≠ NONE_VALUE := by
  unfold pyStrOfInt
  by_cases h : i < 0
  · rw [if_pos h]
    intro hcontra
    have : ('-' :: (pyStrOfNat i.natAbs).toList) = NONE_VALUE.toList :=
      congrArg String.toList hcontra
    rw [show NONE_VALUE.toList = ['N', 'o', 'n', 'e'] from rfl] at this
    exact absurd (List.head_eq_of_cons_eq this) (by decide)
  · rw [if_neg h]
    intro hcontra
    obtain ⟨d, t, hl, hd⟩ := pyStrOfNat_toList i.toNat
    rw [hcontra] at hl
    rw [show NONE_VALUE.toList = ['N', 'o', 'n', 'e'] from rfl] at hl
    exact absurd (List.head_eq_of_cons_eq hl.symm) (digitChar_ne d hd).2.2

/-- Round trip of a string-typed attribute cell under cleanliness. -/
theorem resolveCell_cellOfStr (v : Option String) (h : cleanStr v) :
    resolveCell (cellOfStr v) = v := by
  cases v with
  | none => rfl
  | some s =>
      obtain ⟨h1, h2⟩ := h
      unfold cellOfStr resolveCell
      rw [h1, if_neg h2]

/-- Round trip of an int-typed attribute cell. -/
theorem convInt_cellOfInt (v : Option Int) :
    convInt (resolveCell (cellOfInt v)) = some v := by
  cases v with
  | none => rfl
  | some i =>
      unfold cellOfInt resolveCell
      rw [pyStrip_of_no_ws (pyStrOfInt i) (pyStrOfInt_no_ws i),
        if_neg (pyStrOfInt_ne_none i)]
      unfold convInt
      show (pyIntOfString (pyStrOfInt i)).map (fun k => some k) =
        some (some i)
      rw [pyIntOfString_pyStrOfInt]
      rfl

/-- Counterexample for C7 as stated: the `Task` whose `args` field holds the
literal string `None` is changed by the round trip (its `args` reads back as
the `None` value), so the round trip does not preserve all fields of every
`Task`; moreover the empty string is preserved as the empty string, not
normalised to `None`. -/
theorem csv_roundtrip_counterexample :
    read_entry (write_entry
        (Task.mk (some "None") (some 0) (some 0) (some 0) (some false)
          (some "0"))) =
      some (Task.mk none (some 0) (some 0) (some 0) (some false) (some "0")) ∧
    Task.mk (none : Option String) (some 0) (some 0) (some 0) (some false)
        (some "0") ≠
      Task.mk (some "None") (some 0) (some 0) (some 0) (some false)
        (some "0") ∧
    read_entry (write_entry
        (Task.mk (some "") (some 0) (some 0) (some 0) (some false)
          (some "0"))) =
      some (Task.mk (some "") (some 0) (some 0) (some 0) (some false)
        (some "0")) := by
  refine ⟨by decide, by decide, by decide⟩

/-- C7 (amended): writing a `Task` with `CSVWriter.write_entry` and reading
it back with `CSVReader.read_entry` preserves all six fields whenever the
string-typed fields (`args`, `cores`) are strip-invariant and different from
the literal `None`; a `None` field value is written as the `None` marker and
read back as `None`; the empty string reads back as the empty string. -/
theorem csv_roundtrip_clean (t : Task) (ha : cleanStr t.args)
    (hc : cleanStr t.cores) : read_entry (write_entry t) = some t := by
  unfold read_entry write_entry
  rw [convInt_cellOfInt t.timestamp, convInt_cellOfInt t.duration,
    convInt_cellOfInt t.seqNum]
  simp only []
  rw [resolveCell_cellOfStr t.args ha, resolveCell_cellOfStr t.cores hc]
  have hb : (resolveCell (cellOfBool t.isFault)).map
      (fun s => decide (s = "True")) = t.isFault := by
    cases t.isFault with
    | none => rfl
    | some b => cases b <;> decide
  rw [hb]

/-- Witness for C7 (amended) at a concrete task with clean string fields. -/
theorem csv_roundtrip_clean_witness :
    (cleanStr (Task.mk (some "echo A") (some 100) (some (-3)) (some 7)
        (some true) (some "0,1")).args ∧
      cleanStr (Task.mk (some "echo A") (some 100) (some (-3)) (some 7)
        (some true) (some "0,1")).cores) ∧
    read_entry (write_entry (Task.mk (some "echo A") (some 100) (some (-3))
        (some 7) (some true) (some "0,1"))) =
      some (Task.mk (some "echo A") (some 100) (some (-3)) (some 7)
        (some true) (some "0,1")) :=
  ⟨⟨by decide, by decide⟩,
    csv_roundtrip_clean (Task.mk (some "echo A") (some 100) (some (-3))
      (some 7) (some true) (some "0,1")) (by decide) (by decide)⟩

end FaultInjector
